import Mathlib

/-!
Verification development for the L-System engine of
`src/nodes/spline/splines_from_lsystem.py` (node "Splines from L-System").

Python strings are modelled as `List Char`; Python floats as `ℚ`
(the claims under study do not depend on floating-point rounding);
the rules dictionary as an insertion-ordered association list whose
lookup lets the latest binding for a key win, matching repeated
`rules_dict[key] = value` assignments.
-/

/-! ## Rules dictionary -/

/-- Lookup in the rules dictionary built by successive
`rules_dict[m.group("key")] = m.group("rule")` assignments:
the latest binding for a key wins, as for a Python `dict`. -/
def dictLookup (rules : List (List Char × List Char)) (k : List Char) : Option (List Char) :=
  match rules with
  | [] => none
  | (k', v) :: rest =>
    match dictLookup rest k with
    | some v' => some v'
    | none => if k' = k then some v else none

/-- Characters admitted by the regex character class `[^=QP ]` (rule key). -/
def keyCharOk (c : Char) : Bool :=
  c != '=' && c != 'Q' && c != 'P' && c != ' '

/-- Characters admitted by the regex character class `[^=QP]` (rule replacement). -/
def valCharOk (c : Char) : Bool :=
  c != '=' && c != 'Q' && c != 'P'

/-- `re.match("^(?P<key>[^=QP ]+)=(?P<rule>[^=QP]+)$", rule)` of
`SplinesFromLSystemNode.makeRulesDictFromInputs`.  Since the key class
excludes `=`, a match must split the string at its first `=`; the
anchored pattern is modelled as spanning the whole string. -/
def matchRule (s : List Char) : Option (List Char × List Char) :=
  let key := s.takeWhile (fun c => c != '=')
  match s.dropWhile (fun c => c != '=') with
  | [] => none
  | _ :: val =>
    if !key.isEmpty && !val.isEmpty && key.all keyCharOk && val.all valCharOk then
      some (key, val)
    else
      none

/-- `SplinesFromLSystemNode.makeRulesDictFromInputs`.  The node attribute
`self.errorMessage` is threaded explicitly: it enters as `errMsg0` (the
generated execution code sets it to `""` beforehand) and each malformed
rule overwrites it with `"Malformed Rule: '%s'" % rule`.  Empty rule
strings are skipped by `if rule == "": continue`. -/
def makeRulesDictFromInputs (rules_list : List String) (errMsg0 : String) :
    List (List Char × List Char) × String :=
  rules_list.foldl
    (fun acc rule =>
      if rule = "" then acc
      else
        match matchRule rule.data with
        | none => (acc.1, "Malformed Rule: '" ++ rule ++ "'")
        | some kv => (acc.1 ++ [kv], acc.2))
    ([], errMsg0)

/-! ## L-system evaluator -/

/-- `re.sub("[FAB]", "P", s)`: replace every drawing letter by `P`. -/
def subFAB_P (s : List Char) : List Char :=
  s.map (fun c => if c = 'F' ∨ c = 'A' ∨ c = 'B' then 'P' else c)

/-- `re.sub(target, repl, s, count = 1)` for a single literal character
pattern: replace only the first occurrence. -/
def replaceFirst (target repl : Char) : List Char → List Char
  | [] => []
  | c :: rest => if c = target then repl :: rest else c :: replaceFirst target repl rest

/-- The inner `lsystem_iter` of `LSystem_Eval`: one rewrite pass.  Each
character with a matching rule is replaced by the rule's text; during the
last pass (`i + 1 == num_generations_int`) with a nonzero remainder the
inserted text is marked with the placeholders `P`/`Q` first.  Characters
without a matching rule pass through unchanged; the per-character pieces
are joined with no separator (`"".join(output)`). -/
def lsystem_iter (axiomStr : List Char) (rules : List (List Char × List Char))
    (i : ℕ) (num_generations_int : ℤ) (num_generations_remainder : ℚ) : List Char :=
  (axiomStr.map (fun cur_sym =>
    match dictLookup rules [cur_sym] with
    | some insert_text =>
      if (i : ℤ) + 1 = num_generations_int ∧ num_generations_remainder ≠ 0 then
        if ¬ (cur_sym = 'F' ∨ cur_sym = 'A' ∨ cur_sym = 'B') then
          subFAB_P insert_text
        else
          replaceFirst 'Q' cur_sym (subFAB_P (replaceFirst cur_sym 'Q' insert_text))
      else insert_text
    | none => [cur_sym])).flatten

/-- `LSystem_Eval`: fold `lsystem_iter` over `for i in range(0, num_generations_int)`
(an empty range when the count is not positive). -/
def LSystem_Eval (axiomStr : List Char) (rules : List (List Char × List Char))
    (num_generations_int : ℤ) (num_generations_remainder : ℚ) : List Char :=
  (List.range num_generations_int.toNat).foldl
    (fun s i => lsystem_iter s rules i num_generations_int num_generations_remainder)
    axiomStr

/-- `math.modf`: split a float into `(fractional part, whole part)`, both
carrying the sign of the input (truncation toward zero). -/
def math_modf (q : ℚ) : ℚ × ℤ :=
  if 0 ≤ q then (q - (⌊q⌋ : ℚ), ⌊q⌋) else (q - (⌈q⌉ : ℚ), ⌈q⌉)

/-- `SplinesFromLSystemNode.generateLSystem`: parse the rule inputs, split
the generation count into whole and fractional parts, add one extra pass
when the fractional part is positive, and run `LSystem_Eval`.  Returns
`(outstring, num_generations_remainder)` together with the threaded
`self.errorMessage`. -/
def generateLSystem (axiomStr : String) (rules_list : List String)
    (num_generations_f : ℚ) (errMsg0 : String) : String × ℚ × String :=
  let (rules_dict, errMsg) := makeRulesDictFromInputs rules_list errMsg0
  let (num_generations_remainder, num_generations_whole) := math_modf num_generations_f
  let num_generations_int : ℤ :=
    if num_generations_remainder > 0 then num_generations_whole + 1
    else num_generations_whole
  (String.mk (LSystem_Eval axiomStr.data rules_dict num_generations_int num_generations_remainder),
   num_generations_remainder, errMsg)

example : generateLSystem "F" ["F=F+F-F-F+F"] 1 "" = ("F+F-F-F+F", 0, "") := by
  norm_num [generateLSystem, math_modf, makeRulesDictFromInputs, matchRule, LSystem_Eval,
    List.range_succ, lsystem_iter, dictLookup, subFAB_P, replaceFirst, keyCharOk, valCharOk]
  decide

example : generateLSystem "F" ["F=FF"] (3/2) "" = ("FPFP", 1/2, "") := by
  norm_num [generateLSystem, math_modf, makeRulesDictFromInputs, matchRule, LSystem_Eval,
    List.range_succ, lsystem_iter, dictLookup, subFAB_P, replaceFirst, keyCharOk, valCharOk]
  decide

example : generateLSystem "F" ["F=FF"] (1/2) "" = ("FP", 1/2, "") := by
  norm_num [generateLSystem, math_modf, makeRulesDictFromInputs, matchRule, LSystem_Eval,
    List.range_succ, lsystem_iter, dictLookup, subFAB_P, replaceFirst, keyCharOk, valCharOk]
  decide

example : makeRulesDictFromInputs ["A", "B"] "" = ([], "Malformed Rule: 'B'") := by decide

example : makeRulesDictFromInputs ["AB=F"] "" = ([(['A', 'B'], ['F'])], "") := by decide

/-! ## Turtle geometry generator -/

/-- Modelled from the spec: `PolySpline.fromLocations`
(`data_structures/splines/poly_spline.py`, not under `src/`) builds a
spline curve from a list of points.  The claims only inspect how many
splines are emitted and from which points, so a spline is modelled as its
list of construction points. -/
structure PolySpline (V : Type) where
  points : List V
deriving DecidableEq

/-- Modelled from the spec: "append a spline built from those two points". -/
def PolySpline.fromLocations {V : Type} (locations : List V) : PolySpline V :=
  ⟨locations⟩

/-- The operations of the external `mathutils` library used by
`LS_Turtle.convert`, kept abstract: `V` is the type of 3D vectors and `Q`
the type of rotations (quaternions).  `eulerToQuatY a` stands for
`mathutils.Euler((0, radians(a), 0)).to_quaternion()` with `a` in degrees
(similarly for the other two axes); `vec00z z` for
`mathutils.Vector((0, 0, z))`; `rotate v q` for the value of `v` after
`v.rotate(q)`; `qmul` for quaternion multiplication; `vadd` for vector
addition. -/
structure Mathutils (V Q : Type) where
  vadd : V → V → V
  rotate : V → Q → V
  qmul : Q → Q → Q
  eulerToQuatX : ℚ → Q
  eulerToQuatY : ℚ → Q
  eulerToQuatZ : ℚ → Q
  vec00z : ℚ → V

/-- The state of `LS_Turtle`: the fields set by `__init__` and assigned by
the node's execution code.  The private seeded `random.Random` instance is
modelled as a stream `rnd` of draws in `[0, 1)` together with the index
`rnd_index` of the next draw, so evaluation stays deterministic. -/
structure LS_Turtle where
  segment_count : ℕ
  num_generations_remainder : ℚ
  max_segments : ℕ
  max_segments_error : ℕ
  random_scale : ℚ
  random_rotation : ℚ
  segment_length : ℚ
  rotation_angle : ℚ
  rnd : ℕ → ℚ
  rnd_index : ℕ

/-- `LS_Turtle.__init__` (the PRNG seeded with `random_seed` is abstracted
into the draw stream `rnd`). -/
def LS_Turtle.init (rnd : ℕ → ℚ) : LS_Turtle where
  segment_count := 0
  num_generations_remainder := 0
  max_segments := 0
  max_segments_error := 10000
  random_scale := 0
  random_rotation := 0
  segment_length := 1
  rotation_angle := 1
  rnd := rnd
  rnd_index := 0

/-- `self.rnd.random()`: take the next pseudo-random draw. -/
def LS_Turtle.nextRandom (t : LS_Turtle) : ℚ × LS_Turtle :=
  (t.rnd t.rnd_index, { t with rnd_index := t.rnd_index + 1 })

/-- `LS_Turtle.compute_segment_length`:
`segment_length * ((random() * random_scale) + 1)`. -/
def LS_Turtle.compute_segment_length (t : LS_Turtle) : ℚ × LS_Turtle :=
  let (u, t') := t.nextRandom
  (t.segment_length * (u * t.random_scale + 1), t')

/-- `LS_Turtle.compute_rotation_angle`:
`rotation_angle * ((random() * random_rotation) + 1)`. -/
def LS_Turtle.compute_rotation_angle (t : LS_Turtle) : ℚ × LS_Turtle :=
  let (u, t') := t.nextRandom
  (t.rotation_angle * (u * t.random_rotation + 1), t')

/-- The outcome of a normal return of `LS_Turtle.convert`: the final
turtle state, the emitted `geometry` (pairs `[pos, pos + delta]`), the
emitted `spline_list`, and the unconsumed rest of the symbol string. -/
abbrev ConvertOutcome (V : Type) :=
  LS_Turtle × List (V × V) × List (PolySpline V) × List Char

/-- The message of `Exception("max_segments_error limit reached (%d)" % ...)`. -/
def runawayMessage (max_segments_error : ℕ) : String :=
  "max_segments_error limit reached (" ++ toString max_segments_error ++ ")"

/-- `LS_Turtle.convert`, fuel-indexed so that the recursion is structural.
The Python `while` loop is the tail recursion on the rest of the string
(the accumulating `geometry`/`spline_list` lists become the prepends on
the recursive results, in the same order); `raise` is the `Except.error`
outcome, aborting every enclosing call; `[` recurses on the unconsumed
rest of the string and continues on the returned remainder with the
position it had before the branch (`pos` is a function-local in the
source, never written back by the recursive call) and the saved `old_dir`;
`]` returns immediately.  `fuel` only forces termination: `none` is
returned exactly when it runs out, which `convertFuel_isSome` shows cannot
happen from `fuel > length of the string`. -/
def convertFuel {V Q : Type} (M : Mathutils V Q) :
    ℕ → LS_Turtle → List Char → V → Q → Option (Except String (ConvertOutcome V))
  | 0, _, _, _, _ => none
  | fuel + 1, t, l_string, pos, dir =>
    match l_string with
    | [] => some (.ok (t, [], [], []))
    | cur_sym :: rest =>
      if ¬ (t.max_segments = 0 ∨ t.segment_count < t.max_segments) then
        some (.ok (t, [], [], cur_sym :: rest))
      else if t.segment_count > t.max_segments_error then
        some (.error (runawayMessage t.max_segments_error))
      else if cur_sym = 'P' then
        let t1 := { t with segment_count := t.segment_count + 1 }
        let (len, t2) := t1.compute_segment_length
        let delta := M.rotate (M.vec00z (-(len * t2.num_generations_remainder))) dir
        let pos' := M.vadd pos delta
        match convertFuel M fuel t2 rest pos' dir with
        | none => none
        | some (.error e) => some (.error e)
        | some (.ok (t', geom, spl, rem)) =>
          some (.ok (t', (pos, pos') :: geom, PolySpline.fromLocations [pos, pos'] :: spl, rem))
      else if cur_sym = 'F' ∨ cur_sym = 'A' ∨ cur_sym = 'B' then
        let t1 := { t with segment_count := t.segment_count + 1 }
        let (len, t2) := t1.compute_segment_length
        let delta := M.rotate (M.vec00z (-len)) dir
        let pos' := M.vadd pos delta
        match convertFuel M fuel t2 rest pos' dir with
        | none => none
        | some (.error e) => some (.error e)
        | some (.ok (t', geom, spl, rem)) =>
          some (.ok (t', (pos, pos') :: geom, PolySpline.fromLocations [pos, pos'] :: spl, rem))
      else if cur_sym = 'f' ∨ cur_sym = 'a' ∨ cur_sym = 'b' then
        let (len, t1) := t.compute_segment_length
        let delta := M.rotate (M.vec00z (-len)) dir
        convertFuel M fuel t1 rest (M.vadd pos delta) dir
      else if cur_sym = '+' then
        let (ang, t1) := t.compute_rotation_angle
        convertFuel M fuel t1 rest pos (M.qmul dir (M.eulerToQuatY ang))
      else if cur_sym = '-' then
        let (ang, t1) := t.compute_rotation_angle
        convertFuel M fuel t1 rest pos (M.qmul dir (M.eulerToQuatY (-ang)))
      else if cur_sym = '/' then
        let (ang, t1) := t.compute_rotation_angle
        convertFuel M fuel t1 rest pos (M.qmul dir (M.eulerToQuatZ ang))
      else if cur_sym = '\\' then
        let (ang, t1) := t.compute_rotation_angle
        convertFuel M fuel t1 rest pos (M.qmul dir (M.eulerToQuatZ (-ang)))
      else if cur_sym = '&' then
        let (ang, t1) := t.compute_rotation_angle
        convertFuel M fuel t1 rest pos (M.qmul dir (M.eulerToQuatX ang))
      else if cur_sym = '^' then
        let (ang, t1) := t.compute_rotation_angle
        convertFuel M fuel t1 rest pos (M.qmul dir (M.eulerToQuatX (-ang)))
      else if cur_sym = '[' then
        let old_dir := dir
        match convertFuel M fuel t rest pos dir with
        | none => none
        | some (.error e) => some (.error e)
        | some (.ok (t1, geom, spl, remainder)) =>
          match convertFuel M fuel t1 remainder pos old_dir with
          | none => none
          | some (.error e) => some (.error e)
          | some (.ok (t2, geom2, spl2, rem2)) =>
            some (.ok (t2, geom ++ geom2, spl ++ spl2, rem2))
      else if cur_sym = ']' then
        some (.ok (t, [], [], rest))
      else
        convertFuel M fuel t rest pos dir

/-- `LS_Turtle.convert`: run the fuel-indexed interpreter with enough fuel
(`convertFuel_isSome` shows the fallback branch is unreachable). -/
def LS_Turtle.convert {V Q : Type} (M : Mathutils V Q) (t : LS_Turtle)
    (l_string : List Char) (pos : V) (dir : Q) : Except String (ConvertOutcome V) :=
  match convertFuel M (l_string.length + 1) t l_string pos dir with
  | some r => r
  | none => .error "out of fuel"

/-- A 90-degree rotation of the rational plane. -/
def rot90 (v : ℚ × ℚ) : ℚ × ℚ := (-v.2, v.1)

/-- A concrete instantiation of the abstract `mathutils` operations:
vectors are points of the rational plane (the plane the `(0,0,z)` forward
vectors live in), rotations are counted in quarter turns, and every Euler
rotation is one positive or negative quarter turn depending on the sign of
its angle.  Any instantiation can serve to specialize the universally
quantified theorems; this one makes the `+`/`-` rotations observable in
counterexamples and witnesses. -/
def demoMathutils : Mathutils (ℚ × ℚ) ℤ where
  vadd a b := (a.1 + b.1, a.2 + b.2)
  rotate v q := rot90^[(q % 4).toNat] v
  qmul a b := a + b
  eulerToQuatX _ := 0
  eulerToQuatY a := if 0 ≤ a then 1 else 3
  eulerToQuatZ _ := 0
  vec00z z := (0, z)

/-- The generated execution code of
`SplinesFromLSystemNode.getExecutionCode` for the case where an output is
linked: `self.errorMessage` is cleared, `splines` and `point_pairs` start
as empty lists, the L-system string is generated, a fresh turtle (from
`createTurtle`) gets its parameters assigned, and the conversion runs
inside `try`; on an exception the outputs stay the empty lists and
`self.errorMessage` becomes the message.  The returned tuple is
`(splines, point_pairs, lsystem_string, errorMessage)`. -/
def executeNode {V Q : Type} (M : Mathutils V Q) (rnd : ℕ → ℚ)
    (axiomIn : String) (rules : List String) (num_generations : ℚ)
    (segment_length rotation_angle random_scale random_rotation : ℚ)
    (max_segments max_segments_error : ℕ)
    (initial_position : V) (initial_direction : Q) :
    List (PolySpline V) × List (V × V) × String × String :=
  let (lsystem_string, num_generations_remainder, errMsg) :=
    generateLSystem axiomIn rules num_generations ""
  let turtle : LS_Turtle :=
    { LS_Turtle.init rnd with
        max_segments := max_segments
        max_segments_error := max_segments_error
        num_generations_remainder := num_generations_remainder
        segment_length := segment_length
        rotation_angle := rotation_angle
        random_scale := random_scale
        random_rotation := random_rotation }
  match LS_Turtle.convert M turtle lsystem_string.data initial_position initial_direction with
  | .ok (_, point_pairs, splines, _) => (splines, point_pairs, lsystem_string, errMsg)
  | .error e => ([], [], lsystem_string, e)

/-! ## Spec-side reference definitions (used only to compare against the
implementation in refinement-style theorems) -/

/-- Following the spec's words for the self-triggering marking rule:
"replace exactly the first occurrence of that triggering symbol's own
letter in the replacement text" with a placeholder that is restored at the
end, so the first occurrence of the trigger keeps its letter while every
other drawing letter becomes `P`. -/
def specMarkSelf (trigger : Char) : List Char → List Char
  | [] => []
  | x :: rest =>
    if x = trigger then x :: subFAB_P rest
    else (if x = 'F' ∨ x = 'A' ∨ x = 'B' then 'P' else x) :: specMarkSelf trigger rest

/-- Following the spec's words for one plain rewrite pass: "replaces every
character that has a matching rule with its replacement text verbatim;
characters without a matching rule pass through unchanged", with no
separators. -/
def specVerbatimPass (rules : List (List Char × List Char)) (s : List Char) : List Char :=
  (s.map (fun c => (dictLookup rules [c]).getD [c])).flatten

/-- The last nonempty rule string the parser rejects, if any: since every
rejected rule overwrites `self.errorMessage`, this is the one whose
message survives. -/
def lastRejectedRule (rules_list : List String) : Option String :=
  (rules_list.filter (fun r => r != "" && (matchRule r.data).isNone)).getLast?


/-! ## Structural facts about the interpreter -/

/-- Joint structural facts about a `convertFuel` run.  On a normal return:
the unconsumed remainder is no longer than the input, the two segment caps
are unchanged, the segment counter never passes
`max_segments_error + 1`, and a positive `max_segments` cap is never
exceeded.  On an error: the message is the runaway message for the
(unchanged) error cap, and the error can only happen when the
`max_segments` cap could not have stopped the loop first. -/
theorem convertFuel_spec {V Q : Type} (M : Mathutils V Q) (fuel : ℕ) :
    ∀ (t : LS_Turtle) (l : List Char) (pos : V) (dir : Q)
      (r : Except String (ConvertOutcome V)),
      convertFuel M fuel t l pos dir = some r →
      (∀ t' g s rem, r = .ok (t', g, s, rem) →
          rem.length ≤ l.length ∧
          t'.max_segments = t.max_segments ∧
          t'.max_segments_error = t.max_segments_error ∧
          t'.segment_count ≤ max t.segment_count (t.max_segments_error + 1) ∧
          (0 < t.max_segments → t.segment_count ≤ t.max_segments →
            t'.segment_count ≤ t.max_segments)) ∧
      (∀ e, r = .error e →
          e = runawayMessage t.max_segments_error ∧
          (t.max_segments = 0 ∨ t.max_segments_error < t.max_segments ∨
            t.max_segments < t.segment_count)) := by
  induction fuel with
  | zero => intro t l pos dir r h; simp [convertFuel] at h
  | succ fuel ih =>
    intro t l pos dir r h
    cases l with
    | nil =>
      simp only [convertFuel, Option.some.injEq] at h
      subst h
      constructor
      · intro t' g s rem hr
        simp only [Except.ok.injEq, Prod.mk.injEq] at hr
        obtain ⟨rfl, -, -, rfl⟩ := hr
        exact ⟨Nat.le_refl _, rfl, rfl, Nat.le_max_left _ _, fun _ hh => hh⟩
      · intro e hr; simp at hr
    | cons c rest =>
      simp only [convertFuel, LS_Turtle.compute_segment_length,
        LS_Turtle.compute_rotation_angle, LS_Turtle.nextRandom] at h
      by_cases h1 : ¬(t.max_segments = 0 ∨ t.segment_count < t.max_segments)
      · rw [if_pos h1] at h
        simp only [Option.some.injEq] at h
        subst h
        constructor
        · intro t' g s rem hr
          simp only [Except.ok.injEq, Prod.mk.injEq] at hr
          obtain ⟨rfl, -, -, rfl⟩ := hr
          exact ⟨Nat.le_refl _, rfl, rfl, Nat.le_max_left _ _, fun _ hh => hh⟩
        · intro e hr; simp at hr
      · rw [if_neg h1] at h
        rw [not_not] at h1
        by_cases h2 : t.segment_count > t.max_segments_error
        · rw [if_pos h2] at h
          simp only [Option.some.injEq] at h
          subst h
          constructor
          · intro t' g s rem hr; simp at hr
          · intro e hr
            simp only [Except.error.injEq] at hr
            subst hr
            exact ⟨rfl, by omega⟩
        · rw [if_neg h2] at h
          by_cases hP : c = 'P'
          · rw [if_pos hP] at h
            split at h
            · exact absurd h (by simp)
            · rename_i e0 hin
              simp only [Option.some.injEq] at h
              subst h
              obtain ⟨b1, b2⟩ := (ih _ _ _ _ _ hin).2 e0 rfl
              have b1' : e0 = runawayMessage t.max_segments_error := b1
              have b2' : t.max_segments = 0 ∨ t.max_segments_error < t.max_segments ∨
                  t.max_segments < t.segment_count + 1 := b2
              constructor
              · intro t' g s rem hr; simp at hr
              · intro e hr
                simp only [Except.error.injEq] at hr
                subst hr
                exact ⟨b1', by omega⟩
            · rename_i t1 g1 s1 rem1 hin
              simp only [Option.some.injEq] at h
              subst h
              obtain ⟨a1, a2, a3, a4, a5⟩ := (ih _ _ _ _ _ hin).1 t1 g1 s1 rem1 rfl
              have a2' : t1.max_segments = t.max_segments := a2
              have a3' : t1.max_segments_error = t.max_segments_error := a3
              have a4' : t1.segment_count ≤
                  max (t.segment_count + 1) (t.max_segments_error + 1) := a4
              have a5' : 0 < t.max_segments → t.segment_count + 1 ≤ t.max_segments →
                  t1.segment_count ≤ t.max_segments := a5
              constructor
              · intro t' g s rem hr
                simp only [Except.ok.injEq, Prod.mk.injEq] at hr
                obtain ⟨rfl, -, -, rfl⟩ := hr
                refine ⟨by simpa using Nat.le_succ_of_le a1, a2', a3', by omega, ?_⟩
                intro hms hcnt
                exact a5' hms (by omega)
              · intro e hr; simp at hr
          · rw [if_neg hP] at h
            by_cases hF : c = 'F' ∨ c = 'A' ∨ c = 'B'
            · rw [if_pos hF] at h
              split at h
              · exact absurd h (by simp)
              · rename_i e0 hin
                simp only [Option.some.injEq] at h
                subst h
                obtain ⟨b1, b2⟩ := (ih _ _ _ _ _ hin).2 e0 rfl
                have b1' : e0 = runawayMessage t.max_segments_error := b1
                have b2' : t.max_segments = 0 ∨ t.max_segments_error < t.max_segments ∨
                    t.max_segments < t.segment_count + 1 := b2
                constructor
                · intro t' g s rem hr; simp at hr
                · intro e hr
                  simp only [Except.error.injEq] at hr
                  subst hr
                  exact ⟨b1', by omega⟩
              · rename_i t1 g1 s1 rem1 hin
                simp only [Option.some.injEq] at h
                subst h
                obtain ⟨a1, a2, a3, a4, a5⟩ := (ih _ _ _ _ _ hin).1 t1 g1 s1 rem1 rfl
                have a2' : t1.max_segments = t.max_segments := a2
                have a3' : t1.max_segments_error = t.max_segments_error := a3
                have a4' : t1.segment_count ≤
                    max (t.segment_count + 1) (t.max_segments_error + 1) := a4
                have a5' : 0 < t.max_segments → t.segment_count + 1 ≤ t.max_segments →
                    t1.segment_count ≤ t.max_segments := a5
                constructor
                · intro t' g s rem hr
                  simp only [Except.ok.injEq, Prod.mk.injEq] at hr
                  obtain ⟨rfl, -, -, rfl⟩ := hr
                  refine ⟨by simpa using Nat.le_succ_of_le a1, a2', a3', by omega, ?_⟩
                  intro hms hcnt
                  exact a5' hms (by omega)
                · intro e hr; simp at hr
            · rw [if_neg hF] at h
              by_cases hbr : c = '['
              · rw [if_pos hbr] at h
                rw [if_neg (by simp [hbr]), if_neg (by simp [hbr]), if_neg (by simp [hbr]),
                  if_neg (by simp [hbr]), if_neg (by simp [hbr]), if_neg (by simp [hbr]),
                  if_neg (by simp [hbr])] at h
                split at h
                · exact absurd h (by simp)
                · rename_i e0 hin
                  simp only [Option.some.injEq] at h
                  subst h
                  obtain ⟨b1, b2⟩ := (ih _ _ _ _ _ hin).2 e0 rfl
                  constructor
                  · intro t' g s rem hr; simp at hr
                  · intro e hr
                    simp only [Except.error.injEq] at hr
                    subst hr
                    exact ⟨b1, by omega⟩
                · rename_i t1 g1 s1 rem1 hin
                  obtain ⟨ha1, ha2, ha3, ha4, ha5⟩ := (ih _ _ _ _ _ hin).1 t1 g1 s1 rem1 rfl
                  split at h
                  · exact absurd h (by simp)
                  · rename_i e0 hco
                    simp only [Option.some.injEq] at h
                    subst h
                    obtain ⟨c1, c2⟩ := (ih _ _ _ _ _ hco).2 e0 rfl
                    constructor
                    · intro t' g s rem hr; simp at hr
                    · intro e hr
                      simp only [Except.error.injEq] at hr
                      subst hr
                      rw [ha3] at c1
                      rw [ha2, ha3] at c2
                      refine ⟨c1, ?_⟩
                      rcases c2 with c2 | c2 | c2
                      · exact Or.inl c2
                      · exact Or.inr (Or.inl c2)
                      · by_cases hz : 0 < t.max_segments
                        · rcases h1 with h1 | h1
                          · exact Or.inl h1
                          · have := ha5 hz (by omega)
                            omega
                        · exact Or.inl (by omega)
                  · rename_i t2 g2 s2 rem2 hco
                    simp only [Option.some.injEq] at h
                    subst h
                    obtain ⟨c1, c2, c3, c4, c5⟩ := (ih _ _ _ _ _ hco).1 t2 g2 s2 rem2 rfl
                    constructor
                    · intro t' g s rem hr
                      simp only [Except.ok.injEq, Prod.mk.injEq] at hr
                      obtain ⟨rfl, -, -, rfl⟩ := hr
                      refine ⟨by simp only [List.length_cons]; omega,
                        by rw [c2, ha2], by rw [c3, ha3], ?_, ?_⟩
                      · rw [ha3] at c4
                        omega
                      · intro hms hcnt
                        rw [ha2] at c5
                        exact c5 (by omega) (ha5 hms hcnt)
                    · intro e hr; simp at hr
              · rw [if_neg hbr] at h
                by_cases hket : c = ']'
                · rw [if_neg (by simp [hket]), if_neg (by simp [hket]), if_neg (by simp [hket]),
                    if_neg (by simp [hket]), if_neg (by simp [hket]), if_neg (by simp [hket]),
                    if_neg (by simp [hket]), if_pos hket] at h
                  simp only [Option.some.injEq] at h
                  subst h
                  constructor
                  · intro t' g s rem hr
                    simp only [Except.ok.injEq, Prod.mk.injEq] at hr
                    obtain ⟨rfl, -, -, rfl⟩ := hr
                    exact ⟨Nat.le_succ_of_le (Nat.le_refl _), rfl, rfl, Nat.le_max_left _ _,
                      fun _ hh => hh⟩
                  · intro e hr; simp at hr
                · -- the seven tail-call symbols (fab, rotations) and the default no-op
                  have htail : convertFuel M (fuel + 1) t (c :: rest) pos dir = some r → True :=
                    fun _ => trivial
                  clear htail
                  have hgoal :
                      ∀ (t1 : LS_Turtle) (pos1 : V) (dir1 : Q),
                        t1.max_segments = t.max_segments →
                        t1.max_segments_error = t.max_segments_error →
                        t1.segment_count = t.segment_count →
                        convertFuel M fuel t1 rest pos1 dir1 = some r →
                        (∀ t' g s rem, r = .ok (t', g, s, rem) →
                            rem.length ≤ (c :: rest).length ∧
                            t'.max_segments = t.max_segments ∧
                            t'.max_segments_error = t.max_segments_error ∧
                            t'.segment_count ≤
                              max t.segment_count (t.max_segments_error + 1) ∧
                            (0 < t.max_segments → t.segment_count ≤ t.max_segments →
                              t'.segment_count ≤ t.max_segments)) ∧
                        (∀ e, r = .error e →
                            e = runawayMessage t.max_segments_error ∧
                            (t.max_segments = 0 ∨
                              t.max_segments_error < t.max_segments ∨
                              t.max_segments < t.segment_count)) := by
                    intro t1 pos1 dir1 e1 e2 e3 hrec
                    obtain ⟨hok, herr⟩ := ih _ _ _ _ _ hrec
                    constructor
                    · intro t' g s rem hr
                      obtain ⟨a1, a2, a3, a4, a5⟩ := hok t' g s rem hr
                      rw [e1] at a2 a5
                      rw [e2] at a3 a4
                      rw [e3] at a4 a5
                      exact ⟨Nat.le_succ_of_le a1, a2, a3, a4, a5⟩
                    · intro e hr
                      obtain ⟨b1, b2⟩ := herr e hr
                      rw [e2] at b1
                      rw [e1, e2, e3] at b2
                      exact ⟨b1, b2⟩
                  by_cases hfab : c = 'f' ∨ c = 'a' ∨ c = 'b'
                  · rw [if_pos hfab] at h
                    refine hgoal _ _ _ ?_ ?_ ?_ h <;> rfl
                  · rw [if_neg hfab] at h
                    by_cases hc : c = '+'
                    · rw [if_pos hc] at h
                      refine hgoal _ _ _ ?_ ?_ ?_ h <;> rfl
                    · rw [if_neg hc] at h
                      by_cases hc2 : c = '-'
                      · rw [if_pos hc2] at h
                        refine hgoal _ _ _ ?_ ?_ ?_ h <;> rfl
                      · rw [if_neg hc2] at h
                        by_cases hc3 : c = '/'
                        · rw [if_pos hc3] at h
                          refine hgoal _ _ _ ?_ ?_ ?_ h <;> rfl
                        · rw [if_neg hc3] at h
                          by_cases hc4 : c = '\\'
                          · rw [if_pos hc4] at h
                            refine hgoal _ _ _ ?_ ?_ ?_ h <;> rfl
                          · rw [if_neg hc4] at h
                            by_cases hc5 : c = '&'
                            · rw [if_pos hc5] at h
                              refine hgoal _ _ _ ?_ ?_ ?_ h <;> rfl
                            · rw [if_neg hc5] at h
                              by_cases hc6 : c = '^'
                              · rw [if_pos hc6] at h
                                refine hgoal _ _ _ ?_ ?_ ?_ h <;> rfl
                              · rw [if_neg hc6, if_neg hket] at h
                                refine hgoal _ _ _ ?_ ?_ ?_ h <;> rfl

/-- With more fuel than characters, `convertFuel` never runs out of fuel. -/
theorem convertFuel_isSome {V Q : Type} (M : Mathutils V Q) (fuel : ℕ) :
    ∀ (l : List Char) (t : LS_Turtle) (pos : V) (dir : Q),
      l.length < fuel → (convertFuel M fuel t l pos dir).isSome := by
  induction fuel with
  | zero => intro l t pos dir h; omega
  | succ fuel ih =>
    intro l t pos dir hlen
    cases l with
    | nil => simp [convertFuel]
    | cons c rest =>
      have hrest : rest.length < fuel := by
        simp only [List.length_cons] at hlen; omega
      simp only [convertFuel, LS_Turtle.compute_segment_length,
        LS_Turtle.compute_rotation_angle, LS_Turtle.nextRandom]
      by_cases h1 : ¬(t.max_segments = 0 ∨ t.segment_count < t.max_segments)
      · rw [if_pos h1]; rfl
      · rw [if_neg h1]
        by_cases h2 : t.segment_count > t.max_segments_error
        · rw [if_pos h2]; rfl
        · rw [if_neg h2]
          by_cases hP : c = 'P'
          · rw [if_pos hP]
            split
            · rename_i heq
              rw [← heq]
              exact ih rest _ _ _ hrest
            · rfl
            · rfl
          · rw [if_neg hP]
            by_cases hF : c = 'F' ∨ c = 'A' ∨ c = 'B'
            · rw [if_pos hF]
              split
              · rename_i heq
                rw [← heq]
                exact ih rest _ _ _ hrest
              · rfl
              · rfl
            · rw [if_neg hF]
              by_cases hbr : c = '['
              · rw [if_neg (by simp [hbr]), if_neg (by simp [hbr]), if_neg (by simp [hbr]),
                  if_neg (by simp [hbr]), if_neg (by simp [hbr]), if_neg (by simp [hbr]),
                  if_neg (by simp [hbr]), if_pos hbr]
                split
                · rename_i heq
                  rw [← heq]
                  exact ih rest _ _ _ hrest
                · rfl
                · rename_i t1 g1 s1 rem1 heq
                  have hrem : rem1.length ≤ rest.length :=
                    ((convertFuel_spec M fuel _ _ _ _ _ heq).1 t1 g1 s1 rem1 rfl).1
                  split
                  · rename_i heq2
                    rw [← heq2]
                    exact ih rem1 _ _ _ (by omega)
                  · rfl
                  · rfl
              · rw [if_neg hbr]
                by_cases hket : c = ']'
                · rw [if_neg (by simp [hket]), if_neg (by simp [hket]), if_neg (by simp [hket]),
                    if_neg (by simp [hket]), if_neg (by simp [hket]), if_neg (by simp [hket]),
                    if_neg (by simp [hket]), if_pos hket]
                  rfl
                · by_cases hfab : c = 'f' ∨ c = 'a' ∨ c = 'b'
                  · rw [if_pos hfab]; exact ih rest _ _ _ hrest
                  · rw [if_neg hfab]
                    by_cases hc : c = '+'
                    · rw [if_pos hc]; exact ih rest _ _ _ hrest
                    · rw [if_neg hc]
                      by_cases hc2 : c = '-'
                      · rw [if_pos hc2]; exact ih rest _ _ _ hrest
                      · rw [if_neg hc2]
                        by_cases hc3 : c = '/'
                        · rw [if_pos hc3]; exact ih rest _ _ _ hrest
                        · rw [if_neg hc3]
                          by_cases hc4 : c = '\\'
                          · rw [if_pos hc4]; exact ih rest _ _ _ hrest
                          · rw [if_neg hc4]
                            by_cases hc5 : c = '&'
                            · rw [if_pos hc5]; exact ih rest _ _ _ hrest
                            · rw [if_neg hc5]
                              by_cases hc6 : c = '^'
                              · rw [if_pos hc6]; exact ih rest _ _ _ hrest
                              · rw [if_neg hc6, if_neg hket]
                                exact ih rest _ _ _ hrest

/-- `LS_Turtle.convert` is the (always defined) result of the fuel-indexed
interpreter at fuel `length + 1`. -/
theorem convert_eq_convertFuel {V Q : Type} (M : Mathutils V Q) (t : LS_Turtle)
    (l : List Char) (pos : V) (dir : Q) :
    convertFuel M (l.length + 1) t l pos dir = some (LS_Turtle.convert M t l pos dir) := by
  have h := convertFuel_isSome M (l.length + 1) l t pos dir (by omega)
  obtain ⟨r, hr⟩ := Option.isSome_iff_exists.mp h
  rw [LS_Turtle.convert, hr]

/-- The five structural facts of `convertFuel_spec`, at the level of
`LS_Turtle.convert`, for a normal return. -/
theorem convert_ok_spec {V Q : Type} (M : Mathutils V Q) (t : LS_Turtle)
    (l : List Char) (pos : V) (dir : Q) (t' : LS_Turtle) (g : List (V × V))
    (s : List (PolySpline V)) (rem : List Char)
    (h : LS_Turtle.convert M t l pos dir = .ok (t', g, s, rem)) :
    rem.length ≤ l.length ∧
    t'.max_segments = t.max_segments ∧
    t'.max_segments_error = t.max_segments_error ∧
    t'.segment_count ≤ max t.segment_count (t.max_segments_error + 1) ∧
    (0 < t.max_segments → t.segment_count ≤ t.max_segments →
      t'.segment_count ≤ t.max_segments) := by
  have hc := convert_eq_convertFuel M t l pos dir
  rw [h] at hc
  exact (convertFuel_spec M _ _ _ _ _ _ hc).1 t' g s rem rfl

/-- The error facts of `convertFuel_spec`, at the level of
`LS_Turtle.convert`. -/
theorem convert_error_spec {V Q : Type} (M : Mathutils V Q) (t : LS_Turtle)
    (l : List Char) (pos : V) (dir : Q) (e : String)
    (h : LS_Turtle.convert M t l pos dir = .error e) :
    e = runawayMessage t.max_segments_error ∧
    (t.max_segments = 0 ∨ t.max_segments_error < t.max_segments ∨
      t.max_segments < t.segment_count) := by
  have hc := convert_eq_convertFuel M t l pos dir
  rw [h] at hc
  exact (convertFuel_spec M _ _ _ _ _ _ hc).2 e rfl

/-- With no `max_segments` cap and the counter staying within the error
ceiling, a string of `n` drawing symbols draws exactly `n` segments and
consumes the whole string. -/
theorem convertFuel_replicate_F {V Q : Type} (M : Mathutils V Q) :
    ∀ (n : ℕ) (t : LS_Turtle) (pos : V) (dir : Q),
      t.max_segments = 0 → t.segment_count + n ≤ t.max_segments_error + 1 →
      ∃ t' g s, convertFuel M (n + 1) t (List.replicate n 'F') pos dir =
          some (.ok (t', g, s, [])) ∧
        t'.segment_count = t.segment_count + n ∧ g.length = n := by
  intro n
  induction n with
  | zero =>
    intro t pos dir hms hmse
    exact ⟨t, [], [], by simp [convertFuel], by omega, rfl⟩
  | succ n ihn =>
    intro t pos dir hms hmse
    rw [List.replicate_succ, convertFuel]
    simp only [LS_Turtle.compute_segment_length,
      LS_Turtle.compute_rotation_angle, LS_Turtle.nextRandom]
    rw [if_neg (by simp [hms]), if_neg (by omega), if_neg (by decide),
      if_pos (by simp)]
    obtain ⟨t', g, s, heq, hc, hg⟩ :=
      ihn { t with segment_count := t.segment_count + 1, rnd_index := t.rnd_index + 1 }
        (M.vadd pos (M.rotate
          (M.vec00z (-(t.segment_length * (t.rnd t.rnd_index * t.random_scale + 1)))) dir))
        dir hms (by simp; omega)
    rw [heq]
    refine ⟨t', _, _, rfl, by simp at hc; omega, by simp [hg]⟩

/-- Full trace of `LS_Turtle.convert` on `"F[+F]F"` for a turtle with a
fresh segment counter, no `max_segments` cap, zero `random_scale`, and an
error ceiling of at least 2, over arbitrary `mathutils` operations:
three segments are drawn, the remainder is empty, the third segment
starts at the end of the first segment (the position saved at `[`), and
its displacement is computed with the orientation saved at `[`. -/
theorem convert_trace_FbrF {V Q : Type} (M : Mathutils V Q)
    (remq rrot seglen rotang : ℚ) (rnd : ℕ → ℚ) (mse : ℕ) (pos : V) (dir : Q)
    (hmse : 2 ≤ mse) :
    LS_Turtle.convert M ⟨0, remq, 0, mse, 0, rrot, seglen, rotang, rnd, 0⟩
        ('F' :: '[' :: '+' :: 'F' :: ']' :: 'F' :: []) pos dir =
      .ok (⟨3, remq, 0, mse, 0, rrot, seglen, rotang, rnd, 4⟩,
        [(pos, M.vadd pos (M.rotate (M.vec00z (-seglen)) dir)),
         (M.vadd pos (M.rotate (M.vec00z (-seglen)) dir),
          M.vadd (M.vadd pos (M.rotate (M.vec00z (-seglen)) dir))
            (M.rotate (M.vec00z (-seglen))
              (M.qmul dir (M.eulerToQuatY (rotang * (rnd 1 * rrot + 1)))))),
         (M.vadd pos (M.rotate (M.vec00z (-seglen)) dir),
          M.vadd (M.vadd pos (M.rotate (M.vec00z (-seglen)) dir))
            (M.rotate (M.vec00z (-seglen)) dir))],
        [PolySpline.fromLocations [pos, M.vadd pos (M.rotate (M.vec00z (-seglen)) dir)],
         PolySpline.fromLocations
           [M.vadd pos (M.rotate (M.vec00z (-seglen)) dir),
            M.vadd (M.vadd pos (M.rotate (M.vec00z (-seglen)) dir))
              (M.rotate (M.vec00z (-seglen))
                (M.qmul dir (M.eulerToQuatY (rotang * (rnd 1 * rrot + 1)))))],
         PolySpline.fromLocations
           [M.vadd pos (M.rotate (M.vec00z (-seglen)) dir),
            M.vadd (M.vadd pos (M.rotate (M.vec00z (-seglen)) dir))
              (M.rotate (M.vec00z (-seglen)) dir)]],
        []) := by
  have c0 : ¬(0 > mse) := by omega
  have c1 : ¬(1 > mse) := by omega
  have c2 : ¬(2 > mse) := by omega
  simp [LS_Turtle.convert, convertFuel, LS_Turtle.compute_segment_length,
    LS_Turtle.compute_rotation_angle, LS_Turtle.nextRandom, c0, c1, c2]

/-! ## Facts about the rewrite pass -/

/-- `lsystem_iter` processes each character independently. -/
theorem lsystem_iter_append (u v : List Char) (rules : List (List Char × List Char))
    (i : ℕ) (G : ℤ) (rem : ℚ) :
    lsystem_iter (u ++ v) rules i G rem =
      lsystem_iter u rules i G rem ++ lsystem_iter v rules i G rem := by
  simp [lsystem_iter]

/-- The code's `Q`-placeholder marking (`re.sub(c,"Q",·,1)`, then
`re.sub("[FAB]","P",·)`, then `re.sub("Q",c,·,1)`) agrees with the
spec-side description `specMarkSelf`, for replacement texts that do not
contain the reserved character `Q`. -/
theorem markSelf_eq_spec (c : Char) :
    ∀ text : List Char, 'Q' ∉ text →
      replaceFirst 'Q' c (subFAB_P (replaceFirst c 'Q' text)) = specMarkSelf c text := by
  intro text
  induction text with
  | nil => intro _; rfl
  | cons x rest ihx =>
    intro hQ
    have hxQ : x ≠ 'Q' := fun h => hQ (h ▸ List.mem_cons_self x rest)
    have hrest : 'Q' ∉ rest := fun h => hQ (List.mem_cons_of_mem _ h)
    by_cases hx : x = c
    · subst hx
      simp [replaceFirst, subFAB_P, specMarkSelf]
    · have hsub : ¬((if x = 'F' ∨ x = 'A' ∨ x = 'B' then 'P' else x) = 'Q') := by
        split
        · decide
        · exact hxQ
      simp only [replaceFirst, if_neg hx, subFAB_P, List.map_cons, specMarkSelf,
        if_neg hsub]
      exact congrArg _ (ihx hrest)

/-- When the marking condition does not hold (not the last pass, or no
fractional remainder), a pass inserts replacements verbatim: it is the
spec-side `specVerbatimPass`. -/
theorem lsystem_iter_verbatim (s : List Char) (rules : List (List Char × List Char))
    (i : ℕ) (G : ℤ) (rem : ℚ) (h : (i : ℤ) + 1 ≠ G ∨ rem = 0) :
    lsystem_iter s rules i G rem = specVerbatimPass rules s := by
  unfold lsystem_iter specVerbatimPass
  congr 1
  apply List.map_congr_left
  intro c _
  cases hdl : dictLookup rules [c] with
  | none => simp
  | some insert_text =>
    simp only [Option.getD_some]
    rw [if_neg]
    rintro ⟨h1, h2⟩
    rcases h with h | h
    · exact h h1
    · exact h2 h

/-- C3 helper, single firing inside an arbitrary string, final pass,
self-triggering drawing symbol. -/
theorem lsystem_iter_mark_self (u v : List Char) (rules : List (List Char × List Char))
    (c : Char) (insert_text : List Char) (i : ℕ) (G : ℤ) (rem : ℚ)
    (hdl : dictLookup rules [c] = some insert_text)
    (hG : (i : ℤ) + 1 = G) (hrem : rem ≠ 0)
    (hc : c = 'F' ∨ c = 'A' ∨ c = 'B') (hQ : 'Q' ∉ insert_text) :
    lsystem_iter (u ++ c :: v) rules i G rem =
      lsystem_iter u rules i G rem ++ specMarkSelf c insert_text ++
        lsystem_iter v rules i G rem := by
  have hsingle : lsystem_iter [c] rules i G rem = specMarkSelf c insert_text := by
    simp only [lsystem_iter, List.map_cons, List.map_nil, hdl, List.flatten,
      List.append_nil]
    rw [if_pos ⟨hG, hrem⟩, if_neg (not_not_intro hc)]
    exact markSelf_eq_spec c insert_text hQ
  have : (c :: v) = [c] ++ v := rfl
  rw [this, ← List.append_assoc, lsystem_iter_append, lsystem_iter_append, hsingle]

/-- C3: during the final fractional pass, a firing whose trigger is a
drawing symbol keeps exactly the first occurrence of its own letter and
turns every other drawing letter of the replacement into `P`; the
concrete expansion of axiom `F` with rule `F=FF` at 1.5 generations. -/
theorem C3_self_trigger_marking :
    (∀ (u v : List Char) (rules : List (List Char × List Char)) (c : Char)
       (insert_text : List Char) (i : ℕ) (G : ℤ) (rem : ℚ),
       dictLookup rules [c] = some insert_text →
       (i : ℤ) + 1 = G → rem ≠ 0 →
       (c = 'F' ∨ c = 'A' ∨ c = 'B') → 'Q' ∉ insert_text →
       lsystem_iter (u ++ c :: v) rules i G rem =
         lsystem_iter u rules i G rem ++ specMarkSelf c insert_text ++
           lsystem_iter v rules i G rem) ∧
    generateLSystem "F" ["F=FF"] (3/2) "" = ("FPFP", 1/2, "") := by
  constructor
  · exact lsystem_iter_mark_self
  · norm_num [generateLSystem, math_modf, makeRulesDictFromInputs, matchRule, LSystem_Eval,
      List.range_succ, lsystem_iter, dictLookup, subFAB_P, replaceFirst, keyCharOk, valCharOk]
    decide

/-- C3 witness: rule `F=FA`, final pass with remainder one half. -/
theorem C3_witness :
    lsystem_iter ([] ++ 'F' :: []) [(['F'], ['F', 'A'])] 0 1 (1/2) =
      lsystem_iter [] [(['F'], ['F', 'A'])] 0 1 (1/2) ++ specMarkSelf 'F' ['F', 'A'] ++
        lsystem_iter [] [(['F'], ['F', 'A'])] 0 1 (1/2) ∧
    specMarkSelf 'F' ['F', 'A'] = ['F', 'P'] :=
  ⟨C3_self_trigger_marking.1 [] [] _ 'F' ['F', 'A'] 0 1 (1/2) (by decide) rfl
      (by norm_num) (Or.inl rfl) (by decide),
   by decide⟩

/-- C4: during the final fractional pass, a firing whose trigger is not a
drawing symbol replaces every `F`/`A`/`B` of the replacement by `P`;
non-firing symbols pass through unchanged in every pass; passes other than
the final fractional one insert replacements verbatim. -/
theorem C4_nonself_trigger_marking :
    (∀ (u v : List Char) (rules : List (List Char × List Char)) (c : Char)
       (insert_text : List Char) (i : ℕ) (G : ℤ) (rem : ℚ),
       dictLookup rules [c] = some insert_text →
       (i : ℤ) + 1 = G → rem ≠ 0 → ¬(c = 'F' ∨ c = 'A' ∨ c = 'B') →
       lsystem_iter (u ++ c :: v) rules i G rem =
         lsystem_iter u rules i G rem ++ subFAB_P insert_text ++
           lsystem_iter v rules i G rem) ∧
    (∀ (c : Char) (rules : List (List Char × List Char)) (i : ℕ) (G : ℤ) (rem : ℚ),
       dictLookup rules [c] = none →
       lsystem_iter [c] rules i G rem = [c]) ∧
    (∀ (s : List Char) (rules : List (List Char × List Char)) (i : ℕ) (G : ℤ) (rem : ℚ),
       (i : ℤ) + 1 ≠ G ∨ rem = 0 →
       lsystem_iter s rules i G rem = specVerbatimPass rules s) := by
  refine ⟨?_, ?_, lsystem_iter_verbatim⟩
  · intro u v rules c insert_text i G rem hdl hG hrem hc
    have hsingle : lsystem_iter [c] rules i G rem = subFAB_P insert_text := by
      simp only [lsystem_iter, List.map_cons, List.map_nil, hdl, List.flatten,
        List.append_nil]
      rw [if_pos ⟨hG, hrem⟩, if_pos hc]
    have : (c :: v) = [c] ++ v := rfl
    rw [this, ← List.append_assoc, lsystem_iter_append, lsystem_iter_append, hsingle]
  · intro c rules i G rem hdl
    simp [lsystem_iter, hdl]

/-- C4 witness: trigger `X` (not a drawing symbol) with rule `X=FF`, a
non-firing symbol, and a non-final pass. -/
theorem C4_witness :
    (lsystem_iter ([] ++ 'X' :: []) [(['X'], ['F', 'F'])] 0 1 (1/2) =
      lsystem_iter [] [(['X'], ['F', 'F'])] 0 1 (1/2) ++ subFAB_P ['F', 'F'] ++
        lsystem_iter [] [(['X'], ['F', 'F'])] 0 1 (1/2)) ∧
    subFAB_P ['F', 'F'] = ['P', 'P'] ∧
    lsystem_iter ['Y'] [(['X'], ['F', 'F'])] 0 1 (1/2) = ['Y'] ∧
    lsystem_iter ['X'] [(['X'], ['F', 'F'])] 0 2 (1/2) =
      specVerbatimPass [(['X'], ['F', 'F'])] ['X'] :=
  ⟨C4_nonself_trigger_marking.1 [] [] _ 'X' ['F', 'F'] 0 1 (1/2) (by decide) rfl
      (by norm_num) (by decide),
   by decide,
   C4_nonself_trigger_marking.2.1 'Y' _ 0 1 (1/2) (by decide),
   C4_nonself_trigger_marking.2.2 ['X'] _ 0 2 (1/2) (Or.inl (by decide))⟩

/-- C9: expanding with generation count `0` returns the axiom unchanged
and a zero remainder, whatever the rule strings (malformed ones included). -/
theorem C9_zero_generations_noop (axiomStr : String) (rules_list : List String)
    (errMsg0 : String) :
    (generateLSystem axiomStr rules_list 0 errMsg0).1 = axiomStr ∧
    (generateLSystem axiomStr rules_list 0 errMsg0).2.1 = 0 := by
  obtain ⟨data⟩ := axiomStr
  constructor
  · simp [generateLSystem, math_modf, LSystem_Eval]
  · simp [generateLSystem, math_modf]

/-! ## Rule parsing characterization -/

/-- Characterization of the parser's fold: well-formed rules are appended
in order, and the diagnostic message ends as the message of the last
rejected nonempty rule (each rejection overwrites the previous message);
empty strings are skipped without touching the message. -/
theorem makeRules_foldl (rules_list : List String) :
    ∀ (acc : List (List Char × List Char)) (msg : String),
      rules_list.foldl
        (fun acc rule =>
          if rule = "" then acc
          else
            match matchRule rule.data with
            | none => (acc.1, "Malformed Rule: '" ++ rule ++ "'")
            | some kv => (acc.1 ++ [kv], acc.2))
        (acc, msg) =
      (acc ++ rules_list.filterMap (fun r => matchRule r.data),
       match lastRejectedRule rules_list with
       | some r => "Malformed Rule: '" ++ r ++ "'"
       | none => msg) := by
  induction rules_list with
  | nil => intro acc msg; simp [lastRejectedRule]
  | cons r rest ihr =>
    intro acc msg
    simp only [List.foldl_cons]
    by_cases hre : r = ""
    · subst hre
      rw [if_pos rfl, ihr]
      have hm : matchRule ("" : String).data = none := by decide
      simp [lastRejectedRule, hm, List.filter_cons]
    · rw [if_neg hre]
      cases hm : matchRule r.data with
      | none =>
        rw [ihr]
        simp only [List.filterMap_cons, hm]
        have hlr : lastRejectedRule (r :: rest) =
            (r :: List.filter (fun s => s != "" && (matchRule s.data).isNone) rest).getLast? := by
          simp [lastRejectedRule, List.filter_cons, hm, hre]
        rw [hlr]
        cases hfil : List.filter (fun s => s != "" && (matchRule s.data).isNone) rest with
        | nil => simp [lastRejectedRule, hfil]
        | cons x xs =>
          simp only [lastRejectedRule, hfil, List.getLast?_cons_cons]
          cases hy : (x :: xs).getLast? with
          | none =>
            rw [List.getLast?_eq_none_iff] at hy
            simp at hy
          | some y => rfl
      | some kv =>
        rw [ihr]
        simp only [List.filterMap_cons, hm]
        have hlr : lastRejectedRule (r :: rest) = lastRejectedRule rest := by
          simp [lastRejectedRule, List.filter_cons, hm]
        rw [hlr]
        simp [List.append_assoc]

/-- C5 counterexample: with two malformed rules `"A"` and `"B"`, the
surfaced message is only the one for `"B"`; the message for `"A"` was
overwritten, so not all skipped-rule messages reach the caller. -/
theorem C5_counterexample :
    makeRulesDictFromInputs ["A", "B"] "" = ([], "Malformed Rule: 'B'") ∧
    (makeRulesDictFromInputs ["A", "B"] "").2 ≠ "Malformed Rule: 'A'" := by
  constructor
  · decide
  · decide

/-- C5 amended: every well-formed rule still enters the rule set, each
malformed nonempty rule is rejected individually without aborting the
parse, but the per-rule messages overwrite one another: the surfaced
diagnostic is the message of the last rejected nonempty rule (empty rule
strings are skipped silently). -/
theorem C5_amended_rule_parsing (rules_list : List String) (errMsg0 : String) :
    (makeRulesDictFromInputs rules_list errMsg0).1 =
      rules_list.filterMap (fun r => matchRule r.data) ∧
    (makeRulesDictFromInputs rules_list errMsg0).2 =
      (match lastRejectedRule rules_list with
       | some r => "Malformed Rule: '" ++ r ++ "'"
       | none => errMsg0) := by
  unfold makeRulesDictFromInputs
  rw [makeRules_foldl rules_list [] errMsg0]
  exact ⟨rfl, rfl⟩

/-! ## Expansion pass structure -/

/-- Folding the rewrite passes over indices that never satisfy the marking
condition is iterating the verbatim pass. -/
theorem foldl_range_verbatim (rules : List (List Char × List Char)) (G : ℤ) (rem : ℚ)
    (m : ℕ) (hm : ∀ i : ℕ, i < m → ((i : ℤ) + 1 ≠ G ∨ rem = 0)) :
    ∀ s : List Char,
      (List.range m).foldl (fun s i => lsystem_iter s rules i G rem) s =
        (specVerbatimPass rules)^[m] s := by
  induction m with
  | zero => intro s; simp
  | succ m ihm =>
    intro s
    rw [List.range_succ, List.foldl_append, ihm (fun i hi => hm i (by omega))]
    simp only [List.foldl_cons, List.foldl_nil]
    rw [Function.iterate_succ_apply']
    exact lsystem_iter_verbatim _ _ _ _ _ (hm m (by omega))

/-- C6 counterexample: at generation count 1/2 the single performed pass
is not verbatim — rule `F=FF` inserts `FP`, not `FF`. -/
theorem C6_counterexample :
    (generateLSystem "F" ["F=FF"] (1/2) "").1 = "FP" ∧
    (generateLSystem "F" ["F=FF"] (1/2) "").1 ≠ "FF" := by
  have h : generateLSystem "F" ["F=FF"] (1/2) "" = ("FP", 1/2, "") := by
    norm_num [generateLSystem, math_modf, makeRulesDictFromInputs, matchRule, LSystem_Eval,
      List.range_succ, lsystem_iter, dictLookup, subFAB_P, replaceFirst, keyCharOk, valCharOk]
    decide
  rw [h]
  exact ⟨rfl, by decide⟩

/-- C6 amended: an integer generation count performs exactly that many
verbatim passes; a fractional count performs the floor's worth of verbatim
passes plus one final marking pass; the concrete Koch-rule expansion. -/
theorem C6_amended_expand_passes :
    (∀ (axiomStr : String) (rules_list : List String) (errMsg0 : String) (gc : ℚ),
       0 ≤ gc → gc = (⌊gc⌋ : ℚ) →
       generateLSystem axiomStr rules_list gc errMsg0 =
         (String.mk ((specVerbatimPass
             (makeRulesDictFromInputs rules_list errMsg0).1)^[⌊gc⌋.toNat] axiomStr.data),
          0, (makeRulesDictFromInputs rules_list errMsg0).2)) ∧
    (∀ (axiomStr : String) (rules_list : List String) (errMsg0 : String) (gc : ℚ),
       0 ≤ gc → gc - (⌊gc⌋ : ℚ) ≠ 0 →
       generateLSystem axiomStr rules_list gc errMsg0 =
         (String.mk (lsystem_iter
             ((specVerbatimPass (makeRulesDictFromInputs rules_list errMsg0).1)^[⌊gc⌋.toNat]
               axiomStr.data)
             (makeRulesDictFromInputs rules_list errMsg0).1
             ⌊gc⌋.toNat (⌊gc⌋ + 1) (gc - (⌊gc⌋ : ℚ))),
          gc - (⌊gc⌋ : ℚ), (makeRulesDictFromInputs rules_list errMsg0).2)) ∧
    generateLSystem "F" ["F=F+F-F-F+F"] 1 "" = ("F+F-F-F+F", 0, "") := by
  refine ⟨?_, ?_, ?_⟩
  · intro axiomStr rules_list errMsg0 gc hge hint
    rcases hmd : makeRulesDictFromInputs rules_list errMsg0 with ⟨dict, msg⟩
    simp only [generateLSystem, hmd, math_modf, if_pos hge]
    rw [hint]
    simp only [Int.floor_intCast, sub_self]
    rw [if_neg (lt_irrefl 0)]
    simp only [LSystem_Eval]
    rw [foldl_range_verbatim dict ⌊gc⌋ 0 ⌊gc⌋.toNat (fun i _ => Or.inr rfl)]
  · intro axiomStr rules_list errMsg0 gc hge hne
    rcases hmd : makeRulesDictFromInputs rules_list errMsg0 with ⟨dict, msg⟩
    have hk : (0 : ℤ) ≤ ⌊gc⌋ := Int.floor_nonneg.mpr hge
    have hpos : gc - (⌊gc⌋ : ℚ) > 0 :=
      lt_of_le_of_ne (sub_nonneg.mpr (Int.floor_le gc)) (Ne.symm hne)
    simp only [generateLSystem, hmd, math_modf, if_pos hge]
    rw [if_pos hpos]
    have htn : (⌊gc⌋ + 1).toNat = ⌊gc⌋.toNat + 1 := by omega
    simp only [LSystem_Eval, htn]
    rw [List.range_succ, List.foldl_append,
      foldl_range_verbatim dict (⌊gc⌋ + 1) (gc - (⌊gc⌋ : ℚ)) ⌊gc⌋.toNat
        (fun i hi => Or.inl (by omega))]
    simp only [List.foldl_cons, List.foldl_nil]
  · norm_num [generateLSystem, math_modf, makeRulesDictFromInputs, matchRule, LSystem_Eval,
      List.range_succ, lsystem_iter, dictLookup, subFAB_P, replaceFirst, keyCharOk, valCharOk]
    decide

/-- C6 witness: integer generation count 2 with the rule `F=FF`. -/
theorem C6_witness :
    generateLSystem "F" ["F=FF"] 2 "" =
      (String.mk ((specVerbatimPass
          (makeRulesDictFromInputs ["F=FF"] "").1)^[⌊(2 : ℚ)⌋.toNat] "F".data),
       0, (makeRulesDictFromInputs ["F=FF"] "").2) ∧
    (specVerbatimPass [(['F'], ['F', 'F'])])^[2] ['F'] = ['F', 'F', 'F', 'F'] :=
  ⟨C6_amended_expand_passes.1 "F" ["F=FF"] "" 2 (by norm_num) (by norm_num),
   by decide⟩

/-! ## Multi-character rule keys -/

/-- A rule whose key is not a single character never matches the
single-character lookups of the rewrite pass. -/
theorem dictLookup_skip (k v : List Char) (c : Char) (hk : k.length ≠ 1) :
    ∀ rules₁ rules₂ : List (List Char × List Char),
      dictLookup (rules₁ ++ (k, v) :: rules₂) [c] = dictLookup (rules₁ ++ rules₂) [c] := by
  have hkne : ¬(k = [c]) := fun h => hk (by rw [h]; rfl)
  intro rules₁
  induction rules₁ with
  | nil =>
    intro rules₂
    simp only [List.nil_append, dictLookup]
    cases h2 : dictLookup rules₂ [c] <;> simp [hkne]
  | cons p rules₁ ihp =>
    intro rules₂
    obtain ⟨k', v'⟩ := p
    simp only [List.cons_append, dictLookup, List.append_eq]
    rw [ihp]

/-- A pass is unaffected by a rule with a non-single-character key. -/
theorem lsystem_iter_skip (k v : List Char) (hk : k.length ≠ 1)
    (s : List Char) (rules₁ rules₂ : List (List Char × List Char))
    (i : ℕ) (G : ℤ) (rem : ℚ) :
    lsystem_iter s (rules₁ ++ (k, v) :: rules₂) i G rem =
      lsystem_iter s (rules₁ ++ rules₂) i G rem := by
  unfold lsystem_iter
  congr 1
  apply List.map_congr_left
  intro c _
  rw [dictLookup_skip k v c hk]

/-- Folding passes is likewise unaffected. -/
theorem foldl_iter_skip (k v : List Char) (hk : k.length ≠ 1)
    (rules₁ rules₂ : List (List Char × List Char)) (G : ℤ) (rem : ℚ) :
    ∀ (idxs : List ℕ) (s : List Char),
      idxs.foldl (fun s i => lsystem_iter s (rules₁ ++ (k, v) :: rules₂) i G rem) s =
        idxs.foldl (fun s i => lsystem_iter s (rules₁ ++ rules₂) i G rem) s := by
  intro idxs
  induction idxs with
  | nil => intro s; rfl
  | cons j rest ihj =>
    intro s
    simp only [List.foldl_cons]
    rw [lsystem_iter_skip k v hk]
    exact ihj _

/-- C10: a rule with a multi-character key parses without any diagnostic,
yet never fires: expansion with it present equals expansion with it
absent, at any position of the rule set. -/
theorem C10_multichar_key_inert :
    makeRulesDictFromInputs ["AB=F"] "" = ([(['A', 'B'], ['F'])], "") ∧
    (∀ (k v : List Char) (rules₁ rules₂ : List (List Char × List Char))
       (axiomStr : List Char) (G : ℤ) (rem : ℚ),
       2 ≤ k.length →
       LSystem_Eval axiomStr (rules₁ ++ (k, v) :: rules₂) G rem =
         LSystem_Eval axiomStr (rules₁ ++ rules₂) G rem) := by
  refine ⟨by decide, ?_⟩
  intro k v rules₁ rules₂ axiomStr G rem hk
  unfold LSystem_Eval
  exact foldl_iter_skip k v (by omega) rules₁ rules₂ G rem _ axiomStr

/-- C10 witness: the rule `AB=F` next to `F=FF` changes nothing. -/
theorem C10_witness :
    LSystem_Eval ['F'] ([] ++ (['A', 'B'], ['F']) :: [(['F'], ['F', 'F'])]) 1 0 =
      LSystem_Eval ['F'] ([] ++ [(['F'], ['F', 'F'])]) 1 0 ∧
    LSystem_Eval ['F'] [(['A', 'B'], ['F']), (['F'], ['F', 'F'])] 1 0 = ['F', 'F'] :=
  ⟨C10_multichar_key_inert.2 ['A', 'B'] ['F'] [] [(['F'], ['F', 'F'])] ['F'] 1 0 (by decide),
   by decide⟩

/-! ## Turtle claims -/

/-- C7: interpreting `"F[+F]F"` (zero random scale, no segment cap,
fresh counter, error ceiling at least 2) draws exactly 3 segments,
returns an empty remainder, and the orientation after `]` is the one
saved at `[`: the third segment's endpoint displacement is computed with
the original `dir`, not the rotated branch orientation. -/
theorem C7_branch_orientation_restored {V Q : Type} (M : Mathutils V Q)
    (remq rrot seglen rotang : ℚ) (rnd : ℕ → ℚ) (mse : ℕ) (pos : V) (dir : Q)
    (hmse : 2 ≤ mse) :
    ∃ t' g s,
      LS_Turtle.convert M ⟨0, remq, 0, mse, 0, rrot, seglen, rotang, rnd, 0⟩
          ('F' :: '[' :: '+' :: 'F' :: ']' :: 'F' :: []) pos dir = .ok (t', g, s, []) ∧
      g.length = 3 ∧ t'.segment_count = 3 ∧ s.length = 3 ∧
      g.map Prod.snd =
        [M.vadd pos (M.rotate (M.vec00z (-seglen)) dir),
         M.vadd (M.vadd pos (M.rotate (M.vec00z (-seglen)) dir))
           (M.rotate (M.vec00z (-seglen))
             (M.qmul dir (M.eulerToQuatY (rotang * (rnd 1 * rrot + 1))))),
         M.vadd (M.vadd pos (M.rotate (M.vec00z (-seglen)) dir))
           (M.rotate (M.vec00z (-seglen)) dir)] := by
  rw [convert_trace_FbrF M remq rrot seglen rotang rnd mse pos dir hmse]
  exact ⟨_, _, _, rfl, rfl, rfl, rfl, rfl⟩

/-- C7 witness: the concrete plane instantiation with unit segments and
the default error ceiling. -/
theorem C7_witness :
    ∃ t' g s,
      LS_Turtle.convert demoMathutils ⟨0, 0, 0, 10000, 0, 0, 1, 90, fun _ => 0, 0⟩
          ('F' :: '[' :: '+' :: 'F' :: ']' :: 'F' :: []) ((0 : ℚ), (0 : ℚ)) (0 : ℤ) =
        .ok (t', g, s, []) ∧
      g.length = 3 ∧ t'.segment_count = 3 ∧ s.length = 3 ∧
      g.map Prod.snd =
        [demoMathutils.vadd ((0 : ℚ), (0 : ℚ))
           (demoMathutils.rotate (demoMathutils.vec00z (-1)) 0),
         demoMathutils.vadd
           (demoMathutils.vadd ((0 : ℚ), (0 : ℚ))
             (demoMathutils.rotate (demoMathutils.vec00z (-1)) 0))
           (demoMathutils.rotate (demoMathutils.vec00z (-1))
             (demoMathutils.qmul 0 (demoMathutils.eulerToQuatY (90 * ((fun _ => (0 : ℚ)) 1 * 0 + 1))))),
         demoMathutils.vadd
           (demoMathutils.vadd ((0 : ℚ), (0 : ℚ))
             (demoMathutils.rotate (demoMathutils.vec00z (-1)) 0))
           (demoMathutils.rotate (demoMathutils.vec00z (-1)) 0)] :=
  C7_branch_orientation_restored demoMathutils 0 0 1 90 (fun _ => 0) 10000
    ((0 : ℚ), (0 : ℚ)) (0 : ℤ) (by norm_num)

/-- C1 counterexample: interpreting `"F[+F]F"` in the concrete plane
instantiation (unit segments, 90-degree quarter-turn rotations, zero
random factors).  The three drawn segments are
`(0,0)→(0,-1)`, `(0,-1)→(1,-1)` and `(0,-1)→(0,-2)`: the third segment
starts at `(0,-1)`, the endpoint of the *first* segment (the position
saved at `[`), not at `(1,-1)`, the endpoint of the second, rotated
segment — so the branch's net displacement is *not* inherited. -/
theorem C1_counterexample :
    LS_Turtle.convert demoMathutils ⟨0, 0, 0, 10000, 0, 0, 1, 90, fun _ => 0, 0⟩
        ('F' :: '[' :: '+' :: 'F' :: ']' :: 'F' :: []) ((0 : ℚ), (0 : ℚ)) (0 : ℤ) =
      .ok (⟨3, 0, 0, 10000, 0, 0, 1, 90, fun _ => 0, 4⟩,
        [(((0 : ℚ), (0 : ℚ)), ((0 : ℚ), (-1 : ℚ))),
         (((0 : ℚ), (-1 : ℚ)), ((1 : ℚ), (-1 : ℚ))),
         (((0 : ℚ), (-1 : ℚ)), ((0 : ℚ), (-2 : ℚ)))],
        [PolySpline.fromLocations [((0 : ℚ), (0 : ℚ)), ((0 : ℚ), (-1 : ℚ))],
         PolySpline.fromLocations [((0 : ℚ), (-1 : ℚ)), ((1 : ℚ), (-1 : ℚ))],
         PolySpline.fromLocations [((0 : ℚ), (-1 : ℚ)), ((0 : ℚ), (-2 : ℚ))]],
        []) ∧
    ((0 : ℚ), (-1 : ℚ)) ≠ ((1 : ℚ), (-1 : ℚ)) := by
  constructor
  · rw [convert_trace_FbrF demoMathutils 0 0 1 90 (fun _ => 0) 10000
      ((0 : ℚ), (0 : ℚ)) (0 : ℤ) (by norm_num)]
    norm_num [demoMathutils, rot90, Prod.ext_iff]
  · intro h
    rw [Prod.ext_iff] at h
    norm_num at h

/-- C1 amended: the position from which the symbols after the matching
`]` are interpreted is the position saved at `[` — position *is*
effectively restored on stack-pop, because the recursive branch call
never writes its position back; in `"F[+F]F"` with zero random factors
the third segment starts at the endpoint of the first segment. -/
theorem C1_amended_position_restored {V Q : Type} (M : Mathutils V Q)
    (remq rrot seglen rotang : ℚ) (rnd : ℕ → ℚ) (mse : ℕ) (pos : V) (dir : Q)
    (hmse : 2 ≤ mse) :
    (LS_Turtle.convert M ⟨0, remq, 0, mse, 0, rrot, seglen, rotang, rnd, 0⟩
        ('F' :: '[' :: '+' :: 'F' :: ']' :: 'F' :: []) pos dir).toOption.map
      (fun r => r.2.1.map Prod.fst) =
      some [pos, M.vadd pos (M.rotate (M.vec00z (-seglen)) dir),
        M.vadd pos (M.rotate (M.vec00z (-seglen)) dir)] := by
  rw [convert_trace_FbrF M remq rrot seglen rotang rnd mse pos dir hmse]
  rfl

/-- C1 amended witness: in the plane instantiation the three segment
start points are `(0,0)`, `(0,-1)`, `(0,-1)`. -/
theorem C1_amended_witness :
    (LS_Turtle.convert demoMathutils ⟨0, 0, 0, 10000, 0, 0, 1, 90, fun _ => 0, 0⟩
        ('F' :: '[' :: '+' :: 'F' :: ']' :: 'F' :: []) ((0 : ℚ), (0 : ℚ)) (0 : ℤ)).toOption.map
      (fun r => r.2.1.map Prod.fst) =
      some [((0 : ℚ), (0 : ℚ)), ((0 : ℚ), (-1 : ℚ)), ((0 : ℚ), (-1 : ℚ))] := by
  rw [C1_amended_position_restored demoMathutils 0 0 1 90 (fun _ => 0) 10000
    ((0 : ℚ), (0 : ℚ)) (0 : ℤ) (by norm_num)]
  norm_num [demoMathutils, rot90, Prod.ext_iff]

/-- C2 counterexample: with `max_segments_error = 1` and `max_segments = 0`
the string `"FF"` draws 2 segments — more than the ceiling — yet `convert`
returns normally, because the check `segment_count > max_segments_error`
runs before each symbol and the counter is incremented after it. -/
theorem C2_counterexample :
    (LS_Turtle.convert demoMathutils ⟨0, 0, 0, 1, 0, 0, 1, 90, fun _ => 0, 0⟩
        ('F' :: 'F' :: []) ((0 : ℚ), (0 : ℚ)) (0 : ℤ)).toOption.map
      (fun r => r.1.segment_count) = some 2 ∧ (2 : ℕ) > 1 := by
  constructor
  · decide
  · norm_num

/-- C2 amended: the ceiling check runs before each symbol, so a conversion
from a fresh counter can draw up to `max_segments_error + 1` segments
before failing; it never returns normally with more than that, a raised
error always carries the ceiling value in the runaway message, and on an
error the node's generated execution code keeps the empty outputs. -/
theorem C2_amended_segment_ceiling :
    (∀ {V Q : Type} (M : Mathutils V Q) (t : LS_Turtle) (l : List Char) (pos : V) (dir : Q)
       (t' : LS_Turtle) (g : List (V × V)) (s : List (PolySpline V)) (rem : List Char),
       t.segment_count = 0 →
       LS_Turtle.convert M t l pos dir = .ok (t', g, s, rem) →
       t'.segment_count ≤ t.max_segments_error + 1) ∧
    (∀ {V Q : Type} (M : Mathutils V Q) (t : LS_Turtle) (l : List Char) (pos : V) (dir : Q)
       (e : String),
       LS_Turtle.convert M t l pos dir = .error e →
       e = runawayMessage t.max_segments_error) ∧
    (∀ {V Q : Type} (M : Mathutils V Q) (rnd : ℕ → ℚ) (axiomIn : String)
       (rules : List String) (gc seglen rotang rscale rrot : ℚ) (ms mse : ℕ)
       (ipos : V) (idir : Q) (ls : String) (rem : ℚ) (msg : String) (e : String),
       generateLSystem axiomIn rules gc "" = (ls, rem, msg) →
       LS_Turtle.convert M
           { LS_Turtle.init rnd with
               max_segments := ms, max_segments_error := mse,
               num_generations_remainder := rem,
               segment_length := seglen, rotation_angle := rotang,
               random_scale := rscale, random_rotation := rrot }
           ls.data ipos idir = .error e →
       executeNode M rnd axiomIn rules gc seglen rotang rscale rrot ms mse ipos idir =
         ([], [], ls, runawayMessage mse)) := by
  refine ⟨?_, ?_, ?_⟩
  · intro V Q M t l pos dir t' g s rem hcnt hok
    have h4 := (convert_ok_spec M t l pos dir t' g s rem hok).2.2.2.1
    omega
  · intro V Q M t l pos dir e herr
    exact (convert_error_spec M t l pos dir e herr).1
  · intro V Q M rnd axiomIn rules gc seglen rotang rscale rrot ms mse ipos idir
      ls rem msg e hg he
    have hmsg : e = runawayMessage mse := (convert_error_spec _ _ _ _ _ _ he).1
    simp only [executeNode, hg]
    rw [he, hmsg]

/-- C2 amended witness: a successful `"F[+F]F"` run from a fresh counter
stays within `max_segments_error + 1`. -/
theorem C2_amended_witness :
    (⟨3, 0, 0, 10000, 0, 0, 1, 90, fun _ => 0, 4⟩ : LS_Turtle).segment_count ≤ 10000 + 1 :=
  C2_amended_segment_ceiling.1 demoMathutils ⟨0, 0, 0, 10000, 0, 0, 1, 90, fun _ => 0, 0⟩
    ('F' :: '[' :: '+' :: 'F' :: ']' :: 'F' :: []) ((0 : ℚ), (0 : ℚ)) (0 : ℤ)
    _ _ _ _ rfl
    (convert_trace_FbrF demoMathutils 0 0 1 90 (fun _ => 0) 10000 ((0 : ℚ), (0 : ℚ))
      (0 : ℤ) (by norm_num))

/-- C8: with a positive `max_segments` at most the error ceiling and the
counter within the cap, `convert` always terminates cleanly (no error) and
the final drawn-segment count never exceeds `max_segments`; with
`max_segments = 0` there is no cap — any number of drawing symbols up to
the error ceiling is drawn in full. -/
theorem C8_max_segments_cap :
    (∀ {V Q : Type} (M : Mathutils V Q) (t : LS_Turtle) (l : List Char) (pos : V) (dir : Q),
       0 < t.max_segments → t.max_segments ≤ t.max_segments_error →
       t.segment_count ≤ t.max_segments →
       ∃ t' g s rem, LS_Turtle.convert M t l pos dir = .ok (t', g, s, rem) ∧
         t'.segment_count ≤ t.max_segments) ∧
    (∀ {V Q : Type} (M : Mathutils V Q) (n : ℕ) (t : LS_Turtle) (pos : V) (dir : Q),
       t.max_segments = 0 → t.segment_count = 0 → n ≤ t.max_segments_error + 1 →
       ∃ t' g s, LS_Turtle.convert M t (List.replicate n 'F') pos dir = .ok (t', g, s, []) ∧
         t'.segment_count = n ∧ g.length = n) := by
  constructor
  · intro V Q M t l pos dir h1 h2 h3
    cases hr : LS_Turtle.convert M t l pos dir with
    | error e =>
      obtain ⟨-, hdisj⟩ := convert_error_spec M t l pos dir e hr
      omega
    | ok out =>
      obtain ⟨t', g, s, rem⟩ := out
      exact ⟨t', g, s, rem, rfl, (convert_ok_spec M t l pos dir t' g s rem hr).2.2.2.2 h1 h3⟩
  · intro V Q M n t pos dir hms hcnt hmse
    obtain ⟨t', g, s, heq, hc, hg⟩ := convertFuel_replicate_F M n t pos dir hms (by omega)
    have hconv := convert_eq_convertFuel M t (List.replicate n 'F') pos dir
    rw [List.length_replicate, heq] at hconv
    exact ⟨t', g, s, (Option.some.inj hconv).symm, by omega, hg⟩

/-- C8 witness: cap 2, ceiling 10, three drawing symbols — the conversion
succeeds and stops at 2 drawn segments. -/
theorem C8_witness :
    ∃ t' g s rem,
      LS_Turtle.convert demoMathutils ⟨0, 0, 2, 10, 0, 0, 1, 90, fun _ => 0, 0⟩
          ('F' :: 'F' :: 'F' :: []) ((0 : ℚ), (0 : ℚ)) (0 : ℤ) = .ok (t', g, s, rem) ∧
      t'.segment_count ≤ 2 :=
  C8_max_segments_cap.1 demoMathutils ⟨0, 0, 2, 10, 0, 0, 1, 90, fun _ => 0, 0⟩
    ('F' :: 'F' :: 'F' :: []) ((0 : ℚ), (0 : ℚ)) (0 : ℤ)
    (by norm_num) (by norm_num) (by norm_num)
